import Mathlib

/-!
# Verification of the FMOS LoadAvgCheck Manager

A shallow embedding of `manage_loadavg_check.py` (the single source file of
the repository `FMOS-LoadAvgCheck-Manager`) together with proofs about the
claims of its specification.

Modelling conventions:
* JSON configuration payloads (as returned by `api_config_get` and sent by
  `api_config_put`) are modelled by the inductive type `JVal`; Python dicts
  become association lists `List (String × JVal)` that keep insertion order,
  mirroring Python dict semantics (assignment keeps the position of an
  existing key, `setdefault` appends a fresh key at the end, `pop` removes
  the key).
* Python exceptions that would propagate out of a function are modelled by
  `Option`/explicit failure flags: `none` (or `ok = false`) marks a run in
  which the Python code raises.
* External collaborators (the REST API, the crontab listing, the credential
  file, the base64 codec of the standard library) live in explicit
  environment values that the embedded functions consume.
* Text handled by the script is `String`; character-level operations
  (Python `str.split()`, `str.strip()`, `in` as substring test, `int(...)`)
  are defined on `String.data` so that they are plain structural recursions.
-/

namespace LoadAvg

/-- JSON values, as produced by `response.json()` and consumed by the
configuration endpoints.  Numbers are restricted to integers: every numeric
field the script touches (`hour`, `minute`) is an integer in the remote
schema, and float-valued payloads are outside the scope of the claims. -/
inductive JVal where
  | null
  | bool (b : Bool)
  | num (n : Int)
  | str (s : String)
  | arr (xs : List JVal)
  | obj (kvs : List (String × JVal))

/-- A JSON object body: an insertion-ordered association list, the shallow
embedding of a Python `dict`. -/
abbrev Obj := List (String × JVal)

/-- First-match lookup, the embedding of `d.get(k)` / `d[k]` on a dict
(dicts have unique keys, so first-match agrees with dict lookup). -/
def lookupKV : Obj → String → Option JVal
  | [], _ => none
  | (k, v) :: rest, key => if k = key then some v else lookupKV rest key

/-- `d[k] = v`: replace the value of an existing key in place (keeping its
position) or append a fresh key at the end, exactly as a Python dict
assignment behaves. -/
def setKV : Obj → String → JVal → Obj
  | [], key, v => [(key, v)]
  | (k, w) :: rest, key, v =>
    if k = key then (k, v) :: rest else (k, w) :: setKV rest key v

/-- `d.pop(k, None)`: drop the (first) binding of `key`, keeping everything
else in order; a no-op when the key is absent. -/
def popKV : Obj → String → Obj
  | [], _ => []
  | (k, w) :: rest, key =>
    if k = key then rest else (k, w) :: popKV rest key

/-- The fixed check identifier `self.check_name` from `__init__`. -/
def checkName : String := "fmos.health.checks.basic.LoadAvgCheck"

/-- Python equality test `check_name == x` for a list element `x` of the
ignore list: `==` between a `str` and a value of any other JSON type is
`False` in Python, so only an equal string matches. -/
def isCheckName : JVal → Bool
  | JVal.str s => s = checkName
  | _ => false

/-- `ignore_checks.remove(check_name)` guarded by
`if check_name in ignore_checks`: remove the first occurrence if present,
otherwise leave the list unchanged. -/
def removeFirstCheck : List JVal → List JVal
  | [] => []
  | x :: xs => if isCheckName x then xs else x :: removeFirstCheck xs

/-- Number of occurrences of the fixed identifier in an ignore list. -/
def countCheck (xs : List JVal) : Nat := xs.countP isCheckName

/-- `if not current_config: current_config = {"health": {}}` — an empty
(falsy) payload, which is also what `api_config_get` returns on any
failure, is replaced by `{"health": {}}`. -/
def normalizeCfg (cfg : Obj) : Obj :=
  if cfg.isEmpty then [("health", JVal.obj [])] else cfg

/-- `current_config.get('health', {})`: the health sub-dict, defaulting to
`{}` when the key is absent.  A non-dict value under `'health'` makes the
following `.get('ignore_checks', ...)` raise in Python; that run is
modelled as `none`. -/
def healthObjOf? (c : Obj) : Option Obj :=
  match lookupKV c "health" with
  | none => some []
  | some (JVal.obj h) => some h
  | some _ => none

/-- `.get('ignore_checks', [])`: the ignore list, defaulting to `[]` when
absent.  A non-list value would make the subsequent list operations
(`append` / `remove`) raise in Python; that run is modelled as `none`. -/
def igOf? (h : Obj) : Option (List JVal) :=
  match lookupKV h "ignore_checks" with
  | none => some []
  | some (JVal.arr xs) => some xs
  | some _ => none

/-- The configuration payload that `disable_check` PUTs back to
`os/health`, as a function of the fetched payload (lines 308–318 of the
source): normalize a falsy fetch, read `health.ignore_checks`, append the
fixed identifier if it is absent, and store the list back through
`setdefault('health', {})['ignore_checks'] = ignore_checks`.  `none` marks
a payload on which the Python code raises before reaching the PUT. -/
def disableResult (cfg : Obj) : Option Obj :=
  let c := normalizeCfg cfg
  match healthObjOf? c with
  | none => none
  | some h =>
    match igOf? h with
    | none => none
    | some ig =>
      let ig2 := if ig.any isCheckName then ig else ig ++ [JVal.str checkName]
      some (setKV c "health" (JVal.obj (setKV h "ignore_checks" (JVal.arr ig2))))

/-- The configuration payload that `enable_check` PUTs back to `os/health`
(lines 346–359 of the source): remove the fixed identifier (first
occurrence) if present; if the resulting list is non-empty store it back,
otherwise delete the `ignore_checks` key entirely via
`setdefault('health', {}).pop('ignore_checks', None)`. -/
def enableResult (cfg : Obj) : Option Obj :=
  let c := normalizeCfg cfg
  match healthObjOf? c with
  | none => none
  | some h =>
    match igOf? h with
    | none => none
    | some ig =>
      let ig2 := removeFirstCheck ig
      if ig2.isEmpty then
        some (setKV c "health" (JVal.obj (popKV h "ignore_checks")))
      else
        some (setKV c "health" (JVal.obj (setKV h "ignore_checks" (JVal.arr ig2))))

/-- The ignore list visible in a payload: `health.ignore_checks` read the
way the source reads it (each missing level defaulting to empty), `[]`
when a level is ill-shaped. -/
def ignoreListOf (cfg : Obj) : List JVal :=
  ((healthObjOf? cfg).bind igOf?).getD []

/-- The health sub-object of a payload (`{}` when absent or ill-shaped),
used to state frame conditions about the keys under `'health'`. -/
def healthObjQ (cfg : Obj) : Obj :=
  (healthObjOf? cfg).getD []

/-! ## Schedule calculator (`get_backup_schedule`, lines 259–293) -/

/-- The record returned by `get_backup_schedule`.  The `schedule` field is
carried through untouched by the source (it is only formatted), so it keeps
its JSON type. -/
structure BackupSchedule where
  hour : Int
  minute : Int
  preHour : Int
  preMinute : Int
  schedule : JVal

/-- `get_backup_schedule` as a function of the payload fetched from
`os/backup/auto-backup` (`{}` stands both for an empty remote mapping and
for a failed GET, which the API client maps to `{}`).  `none` models a run
in which the Python code raises on an ill-typed payload: a non-dict
`auto_backup` value breaks the chained `.get`, and a non-integer
`hour`/`minute` breaks the arithmetic `minute - 5` (all claims concern
integer-valued or absent fields). -/
def getBackupSchedule (cfg : Obj) : Option BackupSchedule :=
  if cfg.isEmpty then
    some ⟨23, 48, 23, 43, JVal.str "daily"⟩
  else
    let ab? : Option Obj :=
      match lookupKV cfg "auto_backup" with
      | none => some []
      | some (JVal.obj ab) => some ab
      | some _ => none
    match ab? with
    | none => none
    | some ab =>
      let hour? : Option Int :=
        match lookupKV ab "hour" with
        | none => some 23
        | some (JVal.num n) => some n
        | some _ => none
      let minute? : Option Int :=
        match lookupKV ab "minute" with
        | none => some 48
        | some (JVal.num n) => some n
        | some _ => none
      let sched := (lookupKV ab "schedule").getD (JVal.str "daily")
      match hour?, minute? with
      | some hour, some minute =>
        let pm0 := minute - 5
        let pm := if pm0 < 0 then pm0 + 60 else pm0
        let ph := if pm0 < 0 then (if hour - 1 < 0 then 23 else hour - 1) else hour
        some ⟨hour, minute, ph, pm, sched⟩
      | _, _ => none

/-! ## Credential store (`get_stored_credentials`, lines 107–122) -/

/-- The on-disk state of `.fmos_api_creds` as the script observes it:
absent, unreadable (`open`/`readlines` raises), or readable with the given
`readlines()` result. -/
inductive CredFile where
  | absent
  | unreadable
  | lines (ls : List String)

/-- Python `str.strip()` on the character list: drop leading and trailing
whitespace. -/
def stripChars (cs : List Char) : List Char :=
  ((cs.dropWhile Char.isWhitespace).reverse.dropWhile Char.isWhitespace).reverse

/-- Python `str.strip()`. -/
def pyStrip (s : String) : String := String.mk (stripChars s.data)

/-- `get_stored_credentials`: returns `(None, None)` for an absent or
unreadable file and for fewer than two lines; with at least two lines it
base64-decodes the first two stripped lines and returns the pair, falling
back to `(None, None)` if decoding raises (the `except` clause).  The
standard-library decoder (`base64.b64decode` followed by `bytes.decode`)
is an external collaborator and enters as the abstract parameter `dec`,
with `none` standing for a raised decode error.  The Lean function is
total: the Python function never lets an exception escape. -/
def getStoredCredentials (dec : String → Option String) :
    CredFile → Option String × Option String
  | CredFile.absent => (none, none)
  | CredFile.unreadable => (none, none)
  | CredFile.lines (l0 :: l1 :: _) =>
    match dec (pyStrip l0), dec (pyStrip l1) with
    | some u, some p => (some u, some p)
    | _, _ => (none, none)
  | CredFile.lines _ => (none, none)

/-! ## Text utilities for the cron synchronizer

Python string primitives used by the cron code, embedded as structural
recursions over `String.data`. -/

/-- Substring test, the embedding of Python `needle in haystack`. -/
def strContainsB (hay pat : String) : Bool :=
  decide (pat.data <:+: hay.data)

/-- The predicate identifying this tool's cron entry:
`str(self.script_path) in line and 'disable' in line`. -/
def matchesLine (sp line : String) : Bool :=
  strContainsB line sp && strContainsB line "disable"

/-- Helper for `str.split()`: accumulate the current word (reversed) while
scanning the character list. -/
def wordsAux : List Char → List Char → List (List Char)
  | cur, [] => if cur.isEmpty then [] else [cur.reverse]
  | cur, c :: cs =>
    if c.isWhitespace then
      if cur.isEmpty then wordsAux [] cs else cur.reverse :: wordsAux [] cs
    else
      wordsAux (c :: cur) cs

/-- Python `str.split()` with no argument: the whitespace-separated words,
with empty strings dropped. -/
def pyWords (s : String) : List (List Char) := wordsAux [] s.data

/-- Decimal digit value of a character, if it is a digit. -/
def digitVal? (c : Char) : Option Nat :=
  if '0' ≤ c ∧ c ≤ '9' then some (c.toNat - 48) else none

/-- Accumulating digit-string evaluator. -/
def digitsValAux : Nat → List Char → Option Nat
  | acc, [] => some acc
  | acc, c :: cs =>
    match digitVal? c with
    | some d => digitsValAux (10 * acc + d) cs
    | none => none

/-- Value of a non-empty all-digit string. -/
def digitsVal? : List Char → Option Nat
  | [] => none
  | cs => digitsValAux 0 cs

/-- The embedding of Python `int(str)` on a split field: an optional sign
followed by a non-empty digit string (`none` models the raised
`ValueError`; exotic `int` inputs such as embedded underscores do not occur
in cron fields). -/
def pyInt? : List Char → Option Int
  | '-' :: cs => (digitsVal? cs).map (fun n => -(n : Int))
  | '+' :: cs => (digitsVal? cs).map (fun n => (n : Int))
  | cs => (digitsVal? cs).map (fun n => (n : Int))

/-- Decimal digit character. -/
def digitChar (d : Nat) : Char := Char.ofNat (48 + d)

/-- Fuel-driven most-significant-first digit expansion. -/
def natDigitsAux : Nat → Nat → List Char
  | 0, _ => []
  | fuel + 1, n =>
    if n = 0 then [] else natDigitsAux fuel (n / 10) ++ [digitChar (n % 10)]

/-- Decimal rendering of a natural number, the embedding of Python
`str(n)` for `n ≥ 0` (the fuel `n` dominates the number of digits). -/
def natDigits (n : Nat) : List Char :=
  if n = 0 then ['0'] else natDigitsAux n n

/-- Decimal rendering of a Python integer inside an f-string. -/
def intChars (n : Int) : List Char :=
  if n < 0 then '-' :: natDigits (-n).toNat else natDigits n.toNat

/-- `str(n)` as a `String`. -/
def intStr (n : Int) : String := String.mk (intChars n)

/-! ## Cron synchronizer (lines 369–455) -/

/-- The cron line built by `setup_cronjob` (lines 416–419): minute and
hour are the pre-backup values, the day fields are `* * *`, and the
command invokes this script's `disable` subcommand, optionally prefixed by
`NO_LOG=1`, with output discarded. -/
def renderCronEntry (noLog : Bool) (exe sp : String) (pm ph : Int) : String :=
  if noLog then
    intStr pm ++ " " ++ intStr ph ++ " * * * NO_LOG=1 " ++ exe ++ " " ++ sp ++
      " disable >/dev/null 2>&1"
  else
    intStr pm ++ " " ++ intStr ph ++ " * * * " ++ exe ++ " " ++ sp ++
      " disable >/dev/null 2>&1"

/-- `get_current_cron_entry`: scan the `crontab -l` output (given as its
`splitlines()` result, `none` when the listing fails or raises) for the
first line containing both the resolved script path and the word
`disable`, returning it stripped. -/
def getCurrentCronEntry (listing : Option (List String)) (sp : String) :
    Option String :=
  match listing with
  | none => none
  | some ls => (ls.find? (fun l => matchesLine sp l)).map pyStrip

/-- API calls observable on the wire, used to state the PUT/APPLY pairing
claims.  `login`, `put` and `apply` record the success of the call the
environment granted. -/
inductive Ev where
  | login (ok : Bool)
  | get (category : String)
  | put (category : String) (ok : Bool)
  | apply (ok : Bool)

/-- The external world of one invocation: resolved credentials, the
responses the API will give, and the current crontab.  `healthCfg` and
`backupCfg` are the `api_config_get` results (already `{}` on a failed
GET, as the client maps every failure to `{}`); `putOk`/`applyOk` are the
boolean outcomes of `api_config_put`/`api_config_apply`; `crontab` is the
`crontab -l` output (`none` when the listing fails). -/
structure Env where
  credsPresent : Bool
  loginOk : Bool
  healthCfg : Obj
  backupCfg : Obj
  putOk : Bool
  applyOk : Bool
  crontab : Option (List String)

/-- Events emitted by `api_login`: with no resolved credentials the
function performs no request and reports success (lines 183–185). -/
def apiLoginEvs (env : Env) : List Ev :=
  if env.credsPresent then [Ev.login env.loginOk] else []

/-- The boolean result of `api_login`. -/
def apiLoginOk (env : Env) : Bool :=
  !env.credsPresent || env.loginOk

/-- Result of the cron-synchronizer functions: the API events they emit,
the crontab writes they perform (each element is one full new crontab, in
order), and whether they completed without raising. -/
structure CronSyncOut where
  evs : List Ev
  writes : List (List String)
  ok : Bool

/-- `setup_cronjob` (lines 409–455): recompute the schedule (one more GET
of `os/backup/auto-backup`), drop every line matching the
path-and-`disable` predicate from the current crontab (an empty crontab
when the listing fails), append the freshly rendered entry, and write the
whole crontab back in a single `crontab -` call. -/
def setupCronjob (noLog : Bool) (exe sp : String) (env : Env) : CronSyncOut :=
  match getBackupSchedule env.backupCfg with
  | none => ⟨[Ev.get "os/backup/auto-backup"], [], false⟩
  | some sch =>
    let entry := renderCronEntry noLog exe sp sch.preMinute sch.preHour
    let existing := env.crontab.getD []
    let newLines := existing.filter (fun l => !matchesLine sp l) ++ [entry]
    ⟨[Ev.get "os/backup/auto-backup"], [newLines], true⟩

/-- `check_and_update_cronjob` (lines 388–407): fetch the schedule; if no
matching cron entry exists, log and return without touching the crontab;
otherwise split the entry, and when it has at least five fields whose
first two parse as integers differing from the computed pre-backup
minute/hour, run a full `setup_cronjob`.  A failed `int(...)` conversion
raises (`ok = false`). -/
def checkAndUpdateCronjob (noLog : Bool) (exe sp : String) (env : Env) :
    CronSyncOut :=
  match getBackupSchedule env.backupCfg with
  | none => ⟨[Ev.get "os/backup/auto-backup"], [], false⟩
  | some sch =>
    match getCurrentCronEntry env.crontab sp with
    | none => ⟨[Ev.get "os/backup/auto-backup"], [], true⟩
    | some entry =>
      match pyWords entry with
      | p0 :: p1 :: rest =>
        if 5 ≤ rest.length + 2 then
          match pyInt? p0, pyInt? p1 with
          | some cm, some ch =>
            if cm ≠ sch.preMinute ∨ ch ≠ sch.preHour then
              let s := setupCronjob noLog exe sp env
              ⟨Ev.get "os/backup/auto-backup" :: s.evs, s.writes, s.ok⟩
            else ⟨[Ev.get "os/backup/auto-backup"], [], true⟩
          | _, _ => ⟨[Ev.get "os/backup/auto-backup"], [], false⟩
        else ⟨[Ev.get "os/backup/auto-backup"], [], true⟩
      | _ => ⟨[Ev.get "os/backup/auto-backup"], [], true⟩

/-- The first two whitespace-separated fields of a crontab line, parsed as
integers the way `check_and_update_cronjob` parses them. -/
def firstTwoInts (l : String) : Option (Int × Int) :=
  match pyWords l with
  | p0 :: p1 :: _ =>
    match pyInt? p0, pyInt? p1 with
    | some a, some b => some (a, b)
    | _, _ => none
  | _ => none

/-! ## Operation traces (check toggle controller and orchestrator) -/

/-- Outcome of one operation at the Python level: a returned boolean or a
propagated exception. -/
inductive PyRes where
  | ok (b : Bool)
  | exc

/-- `disable_check` (lines 295–325): cron sync, login, fetch `os/health`,
rebuild the payload, then `api_config_put(...) and api_config_apply()` —
the APPLY runs only when the PUT succeeded.  The trace lists the API calls
in order; an exception from the cron sync or from an ill-typed payload
cuts the run short. -/
def disableOp (noLog : Bool) (exe sp : String) (env : Env) : List Ev × PyRes :=
  let cs := checkAndUpdateCronjob noLog exe sp env
  if !cs.ok then (cs.evs, PyRes.exc)
  else
    let evs := cs.evs ++ apiLoginEvs env
    if !apiLoginOk env then (evs, PyRes.ok false)
    else
      let evs := evs ++ [Ev.get "os/health"]
      match disableResult env.healthCfg with
      | none => (evs, PyRes.exc)
      | some _ =>
        let evs := evs ++ [Ev.put "os/health" env.putOk]
        if env.putOk then (evs ++ [Ev.apply env.applyOk], PyRes.ok env.applyOk)
        else (evs, PyRes.ok false)

/-- `enable_check` (lines 327–367): same orchestration as `disable_check`
with the removal transformation (the optional 15-minute sleep emits no API
event and is invisible to the trace). -/
def enableOp (noLog : Bool) (exe sp : String) (env : Env) : List Ev × PyRes :=
  let cs := checkAndUpdateCronjob noLog exe sp env
  if !cs.ok then (cs.evs, PyRes.exc)
  else
    let evs := cs.evs ++ apiLoginEvs env
    if !apiLoginOk env then (evs, PyRes.ok false)
    else
      let evs := evs ++ [Ev.get "os/health"]
      match enableResult env.healthCfg with
      | none => (evs, PyRes.exc)
      | some _ =>
        let evs := evs ++ [Ev.put "os/health" env.putOk]
        if env.putOk then (evs ++ [Ev.apply env.applyOk], PyRes.ok env.applyOk)
        else (evs, PyRes.ok false)

/-- `setup_post_backup` (lines 457–493): login (terminal on failure), PUT
the post-backup hook payload, APPLY only when the PUT succeeded. -/
def setupPostBackupOp (env : Env) : List Ev × PyRes :=
  let evs := apiLoginEvs env
  if !apiLoginOk env then (evs, PyRes.ok false)
  else
    let evs := evs ++ [Ev.put "os/backup/post-backup" env.putOk]
    if env.putOk then (evs ++ [Ev.apply env.applyOk], PyRes.ok env.applyOk)
    else (evs, PyRes.ok false)

/-- `cleanup` (lines 521–564), restricted to its API events: after the
best-effort crontab removal (no API events), the post-backup clear runs
`api_config_put` and `api_config_apply` as two separate unconditional
statements (lines 553–554) — the APPLY is issued even when the PUT failed
— and then `enable_check` runs with the wait skipped.  `cleanup` itself
returns `None`; `main` treats any non-raising run as success. -/
def cleanupOp (noLog : Bool) (exe sp : String) (env : Env) : List Ev × PyRes :=
  let pbEvs :=
    apiLoginEvs env ++
      (if apiLoginOk env then
        [Ev.put "os/backup/post-backup" env.putOk, Ev.apply env.applyOk]
      else [])
  let e := enableOp noLog exe sp env
  (pbEvs ++ e.1, match e.2 with | PyRes.exc => PyRes.exc | PyRes.ok _ => PyRes.ok true)

/-- Does the event carry a successful PUT? -/
def isOkPut : Ev → Bool
  | Ev.put _ true => true
  | _ => false

/-- Does the event carry a failed PUT? -/
def isFailedPut : Ev → Bool
  | Ev.put _ false => true
  | _ => false

/-- Is the event a configuration APPLY? -/
def isApplyEv : Ev → Bool
  | Ev.apply _ => true
  | _ => false

/-- Every successful PUT in the trace is immediately followed by an
APPLY. -/
def okPutFollowedByApply : List Ev → Bool
  | [] => true
  | [e] => !isOkPut e
  | e :: e2 :: rest => (!isOkPut e || isApplyEv e2) && okPutFollowedByApply (e2 :: rest)

/-- After a failed PUT, no APPLY is ever issued (the short-circuit rule of
the claim). -/
def noApplyAfterFailedPut : List Ev → Bool
  | [] => true
  | e :: rest =>
    (!isFailedPut e || rest.all (fun x => !isApplyEv x)) && noApplyAfterFailedPut rest

/-! ## Orchestrator exit codes (`main`, lines 696–724) -/

/-- The six subcommands. -/
inductive Cmd where
  | disable
  | enable
  | setup
  | cleanup
  | status
  | credentials
deriving DecidableEq

/-- What the dispatched call produced at the top level: a returned boolean
(meaningless for `cleanup`/`status`, whose dispatch ignores the return
value and sets `success = True`), an uncaught exception, or a
`KeyboardInterrupt`. -/
inductive TopOutcome where
  | ok (b : Bool)
  | exc
  | intr

/-- The process exit code computed by `main`: `sys.exit(0 if success else
1)` after the dispatch, `sys.exit(130)` on `KeyboardInterrupt`,
`sys.exit(1)` on any other exception. -/
def mainExitCode (cmd : Cmd) (r : TopOutcome) : Nat :=
  match r with
  | TopOutcome.intr => 130
  | TopOutcome.exc => 1
  | TopOutcome.ok b =>
    match cmd with
    | Cmd.cleanup => 0
    | Cmd.status => 0
    | _ => if b then 0 else 1

/-! ## Association-list lemmas -/

theorem lookupKV_setKV_self (m : Obj) (k : String) (v : JVal) :
    lookupKV (setKV m k v) k = some v := by
  induction m with
  | nil => simp [setKV, lookupKV]
  | cons p rest ih =>
    obtain ⟨a, w⟩ := p
    by_cases h : a = k <;> simp [setKV, lookupKV, h, ih]

theorem lookupKV_setKV_ne (m : Obj) (k : String) (v : JVal) (k' : String)
    (h : k' ≠ k) : lookupKV (setKV m k v) k' = lookupKV m k' := by
  induction m with
  | nil => simp [setKV, lookupKV, Ne.symm h]
  | cons p rest ih =>
    obtain ⟨a, w⟩ := p
    by_cases ha : a = k
    · subst ha
      simp [setKV, lookupKV, Ne.symm h]
    · by_cases ha' : a = k' <;> simp [setKV, lookupKV, ha, ha', ih, h]

theorem lookupKV_popKV_ne (m : Obj) (k k' : String) (h : k' ≠ k) :
    lookupKV (popKV m k) k' = lookupKV m k' := by
  induction m with
  | nil => simp [popKV]
  | cons p rest ih =>
    obtain ⟨a, w⟩ := p
    by_cases ha : a = k
    · subst ha
      simp [popKV, lookupKV, Ne.symm h]
    · by_cases ha' : a = k' <;> simp [popKV, lookupKV, ha, ha', ih, h]

theorem lookupKV_eq_none_of_not_mem (m : Obj) (k : String)
    (h : k ∉ m.map Prod.fst) : lookupKV m k = none := by
  induction m with
  | nil => rfl
  | cons p rest ih =>
    obtain ⟨a, w⟩ := p
    simp only [List.map_cons, List.mem_cons] at h
    push_neg at h
    simp [lookupKV, Ne.symm h.1, ih h.2]

theorem lookupKV_popKV_self (m : Obj) (k : String)
    (h : (m.map Prod.fst).Nodup) : lookupKV (popKV m k) k = none := by
  induction m with
  | nil => rfl
  | cons p rest ih =>
    obtain ⟨a, w⟩ := p
    simp only [List.map_cons, List.nodup_cons] at h
    by_cases ha : a = k
    · subst ha
      simpa [popKV] using lookupKV_eq_none_of_not_mem rest a h.1
    · simp [popKV, lookupKV, ha, ih h.2]

theorem popKV_keys_sublist (m : Obj) (k : String) :
    List.Sublist ((popKV m k).map Prod.fst) (m.map Prod.fst) := by
  induction m with
  | nil => simp [popKV]
  | cons p rest ih =>
    obtain ⟨a, w⟩ := p
    by_cases ha : a = k
    · simp [popKV, ha]
    · simpa [popKV, ha] using ih.cons₂ a

theorem popKV_keys_nodup (m : Obj) (k : String)
    (h : (m.map Prod.fst).Nodup) : ((popKV m k).map Prod.fst).Nodup :=
  h.sublist (popKV_keys_sublist m k)

theorem setKV_ne_nil (m : Obj) (k : String) (v : JVal) : setKV m k v ≠ [] := by
  cases m with
  | nil => simp [setKV]
  | cons p rest =>
    obtain ⟨a, w⟩ := p
    by_cases ha : a = k <;> simp [setKV, ha]

theorem normalizeCfg_of_ne_nil (l : Obj) (h : l ≠ []) : normalizeCfg l = l := by
  have he : l.isEmpty = false := by simp [List.isEmpty_iff, h]
  simp [normalizeCfg, he]

/-! ## Ignore-list lemmas -/

theorem isCheckName_str_checkName : isCheckName (JVal.str checkName) = true := by
  simp [isCheckName]

theorem countCheck_append_check (l : List JVal) :
    countCheck (l ++ [JVal.str checkName]) = countCheck l + 1 := by
  simp [countCheck, List.countP_append, List.countP_cons, isCheckName_str_checkName]

theorem countCheck_eq_zero_of_not_any (l : List JVal)
    (h : l.any isCheckName = false) : countCheck l = 0 := by
  rw [countCheck, List.countP_eq_zero]
  intro a ha
  simp only [List.any_eq_false] at h
  exact h a ha

theorem countCheck_pos_of_any (l : List JVal) (h : l.any isCheckName = true) :
    0 < countCheck l := by
  rw [countCheck, List.countP_pos_iff]
  simpa using h

theorem removeFirstCheck_of_not_any (l : List JVal)
    (h : l.any isCheckName = false) : removeFirstCheck l = l := by
  induction l with
  | nil => rfl
  | cons x xs ih =>
    simp only [List.any_cons, Bool.or_eq_false_iff] at h
    simp [removeFirstCheck, h.1, ih h.2]

theorem countCheck_removeFirstCheck (l : List JVal)
    (h : l.any isCheckName = true) :
    countCheck (removeFirstCheck l) + 1 = countCheck l := by
  induction l with
  | nil => simp at h
  | cons x xs ih =>
    by_cases hx : isCheckName x = true
    · simp [removeFirstCheck, hx, countCheck, List.countP_cons]
    · have hx' : isCheckName x = false := by simpa using hx
      simp only [List.any_cons, hx', Bool.false_or] at h
      have hih := ih h
      simp only [removeFirstCheck, hx', Bool.false_eq_true, if_false]
      simp only [countCheck, List.countP_cons, hx'] at hih ⊢
      omega

theorem removeFirstCheck_not_any (l : List JVal)
    (h : countCheck l ≤ 1) : (removeFirstCheck l).any isCheckName = false := by
  by_cases ha : l.any isCheckName = true
  · have h1 := countCheck_removeFirstCheck l ha
    rcases Bool.eq_false_or_eq_true ((removeFirstCheck l).any isCheckName) with h2 | h2
    · have := countCheck_pos_of_any _ h2
      omega
    · exact h2
  · rw [removeFirstCheck_of_not_any l (by simpa using ha)]
    simpa using ha

/-! ## Shape lemmas for the health-config transforms -/

theorem disableResult_shape (cfg cfg' : Obj)
    (hr : disableResult cfg = some cfg') :
    ∃ h ig, healthObjOf? (normalizeCfg cfg) = some h ∧ igOf? h = some ig ∧
      cfg' = setKV (normalizeCfg cfg) "health"
        (JVal.obj (setKV h "ignore_checks"
          (JVal.arr (if ig.any isCheckName then ig
                     else ig ++ [JVal.str checkName])))) := by
  simp only [disableResult] at hr
  split at hr
  · cases hr
  · rename_i h hh
    split at hr
    · cases hr
    · rename_i ig hig
      simp only [Option.some.injEq] at hr
      exact ⟨h, ig, hh, hig, hr.symm⟩

theorem enableResult_shape (cfg cfg' : Obj)
    (hr : enableResult cfg = some cfg') :
    ∃ h ig, healthObjOf? (normalizeCfg cfg) = some h ∧ igOf? h = some ig ∧
      ((removeFirstCheck ig = [] ∧
          cfg' = setKV (normalizeCfg cfg) "health"
            (JVal.obj (popKV h "ignore_checks"))) ∨
       (removeFirstCheck ig ≠ [] ∧
          cfg' = setKV (normalizeCfg cfg) "health"
            (JVal.obj (setKV h "ignore_checks"
              (JVal.arr (removeFirstCheck ig)))))) := by
  simp only [enableResult] at hr
  split at hr
  · cases hr
  · rename_i h hh
    split at hr
    · cases hr
    · rename_i ig hig
      by_cases he : (removeFirstCheck ig).isEmpty
      · rw [if_pos he] at hr
        simp only [Option.some.injEq] at hr
        exact ⟨h, ig, hh, hig, Or.inl ⟨List.isEmpty_iff.mp he, hr.symm⟩⟩
      · rw [if_neg he] at hr
        simp only [Option.some.injEq] at hr
        refine ⟨h, ig, hh, hig, Or.inr ⟨?_, hr.symm⟩⟩
        intro hnil
        exact he (by simp [hnil])

theorem ignoreListOf_set (c h : Obj) (xs : List JVal) :
    ignoreListOf (setKV c "health"
      (JVal.obj (setKV h "ignore_checks" (JVal.arr xs)))) = xs := by
  simp [ignoreListOf, healthObjOf?, igOf?, lookupKV_setKV_self]

theorem ignoreListOf_pop (c h : Obj)
    (hnd : (h.map Prod.fst).Nodup) :
    ignoreListOf (setKV c "health" (JVal.obj (popKV h "ignore_checks"))) = [] := by
  simp [ignoreListOf, healthObjOf?, igOf?, lookupKV_setKV_self,
    lookupKV_popKV_self h "ignore_checks" hnd]

theorem healthObjOf?_nil : healthObjOf? (normalizeCfg []) = some [] := rfl

theorem igAgree (cfg : Obj) (h : Obj) (ig : List JVal)
    (hh : healthObjOf? (normalizeCfg cfg) = some h)
    (hi : igOf? h = some ig) : ignoreListOf cfg = ig := by
  by_cases he : cfg.isEmpty
  · obtain rfl : cfg = [] := List.isEmpty_iff.mp he
    rw [healthObjOf?_nil] at hh
    obtain rfl : ([] : Obj) = h := Option.some.inj hh
    rw [show igOf? ([] : Obj) = some [] from rfl] at hi
    obtain rfl : ([] : List JVal) = ig := Option.some.inj hi
    rfl
  · have hc : normalizeCfg cfg = cfg := by simp [normalizeCfg, he]
    rw [hc] at hh
    rw [ignoreListOf, hh]
    simp [hi]

theorem healthObjQ_agree (cfg : Obj) (h : Obj)
    (hh : healthObjOf? (normalizeCfg cfg) = some h) : healthObjQ cfg = h := by
  by_cases he : cfg.isEmpty
  · obtain rfl : cfg = [] := List.isEmpty_iff.mp he
    rw [healthObjOf?_nil] at hh
    obtain rfl : ([] : Obj) = h := Option.some.inj hh
    rfl
  · have hc : normalizeCfg cfg = cfg := by simp [normalizeCfg, he]
    rw [hc] at hh
    rw [healthObjQ, hh]
    rfl

theorem lookupKV_normalizeCfg_ne (cfg : Obj) (k : String) (hk : k ≠ "health") :
    lookupKV (normalizeCfg cfg) k = lookupKV cfg k := by
  by_cases he : cfg.isEmpty
  · rw [List.isEmpty_iff.mp he]
    simp [normalizeCfg, lookupKV, Ne.symm hk]
  · simp [normalizeCfg, he]

/-! ## Word-splitting and digit-rendering lemmas -/

theorem wordsAux_push (w : List Char) : ∀ (acc cs : List Char),
    (∀ c ∈ w, c.isWhitespace = false) →
    wordsAux acc (w ++ cs) = wordsAux (w.reverse ++ acc) cs := by
  induction w with
  | nil => intro acc cs _; simp
  | cons c w' ih =>
    intro acc cs h
    have hc : c.isWhitespace = false := h c (by simp)
    rw [List.cons_append]
    show (if c.isWhitespace = true then _ else wordsAux (c :: acc) (w' ++ cs)) = _
    rw [hc]
    simp only [Bool.false_eq_true, if_false]
    rw [ih (c :: acc) cs (fun c' hc' => h c' (by simp [hc']))]
    simp [List.append_assoc]

theorem wordsAux_emit (cur cs : List Char) (h : cur ≠ []) :
    wordsAux cur (' ' :: cs) = cur.reverse :: wordsAux [] cs := by
  have hws : (' ' : Char).isWhitespace = true := by decide
  have hne : cur.isEmpty = false := by simp [h]
  show (if (' ' : Char).isWhitespace = true then _ else _) = _
  rw [hws]
  simp only [if_true, hne, Bool.false_eq_true, if_false]

theorem pyWords_word (w cs : List Char) (hw : w ≠ [])
    (h : ∀ c ∈ w, c.isWhitespace = false) :
    wordsAux [] (w ++ ' ' :: cs) = w :: wordsAux [] cs := by
  rw [wordsAux_push w [] (' ' :: cs) h, List.append_nil,
    wordsAux_emit _ _ (by simpa using hw), List.reverse_reverse]

set_option maxHeartbeats 1000000 in
theorem natDigits_facts : ∀ m : Nat, m < 60 →
    (natDigits m ≠ [] ∧ (∀ c ∈ natDigits m, c.isWhitespace = false) ∧
      pyInt? (natDigits m) = some (m : Int)) := by decide

theorem intChars_nonneg (n : Int) (h : 0 ≤ n) : intChars n = natDigits n.toNat := by
  simp [intChars, not_lt.mpr h]

theorem intChars_facts (n : Int) (h0 : 0 ≤ n) (h60 : n < 60) :
    intChars n ≠ [] ∧ (∀ c ∈ intChars n, c.isWhitespace = false) ∧
      pyInt? (intChars n) = some n := by
  rw [intChars_nonneg n h0]
  obtain ⟨m, rfl⟩ : ∃ m : Nat, n = (m : Int) := ⟨n.toNat, (Int.toNat_of_nonneg h0).symm⟩
  have hm : m < 60 := by exact_mod_cast h60
  simpa using natDigits_facts m hm

theorem strData_append (a b : String) : (a ++ b).data = a.data ++ b.data := by
  cases a; cases b; rfl

theorem intStr_data (n : Int) : (intStr n).data = intChars n := rfl

theorem renderCronEntry_data (noLog : Bool) (exe sp : String) (pm ph : Int) :
    (renderCronEntry noLog exe sp pm ph).data =
      intChars pm ++ ' ' ::
        (intChars ph ++ ' ' :: '*' :: ' ' :: '*' :: ' ' :: '*' :: ' ' ::
          ((if noLog then "NO_LOG=1 ".data else []) ++ exe.data ++ ' ' ::
            (sp.data ++ " disable >/dev/null 2>&1".data))) := by
  have l1 : (" " : String).data = [' '] := rfl
  have l2 : (" * * * " : String).data = [' ', '*', ' ', '*', ' ', '*', ' '] := rfl
  have l3 : (" * * * NO_LOG=1 " : String).data =
      [' ', '*', ' ', '*', ' ', '*', ' '] ++ "NO_LOG=1 ".data := rfl
  cases noLog <;>
    simp [renderCronEntry, strData_append, intStr_data, l1, l2, l3]

theorem matchesLine_renderCronEntry (noLog : Bool) (exe sp : String) (pm ph : Int) :
    matchesLine sp (renderCronEntry noLog exe sp pm ph) = true := by
  unfold matchesLine strContainsB
  simp only [Bool.and_eq_true, decide_eq_true_eq]
  rw [renderCronEntry_data]
  constructor
  · refine ⟨intChars pm ++ ' ' ::
      (intChars ph ++ ' ' :: '*' :: ' ' :: '*' :: ' ' :: '*' :: ' ' ::
        ((if noLog then "NO_LOG=1 ".data else []) ++ exe.data ++ [' '])),
      " disable >/dev/null 2>&1".data, ?_⟩
    simp
  · have hd : (" disable >/dev/null 2>&1" : String).data =
        ' ' :: ("disable" : String).data ++ (" >/dev/null 2>&1" : String).data := rfl
    refine ⟨intChars pm ++ ' ' ::
      (intChars ph ++ ' ' :: '*' :: ' ' :: '*' :: ' ' :: '*' :: ' ' ::
        ((if noLog then "NO_LOG=1 ".data else []) ++ exe.data ++ ' ' ::
          (sp.data ++ [' ']))),
      (" >/dev/null 2>&1" : String).data, ?_⟩
    rw [hd]
    simp

theorem pyWords_renderCronEntry (noLog : Bool) (exe sp : String) (pm ph : Int)
    (hpm0 : 0 ≤ pm) (hpm : pm < 60) (hph0 : 0 ≤ ph) (hph : ph < 60) :
    pyWords (renderCronEntry noLog exe sp pm ph) =
      intChars pm :: intChars ph :: ['*'] :: ['*'] :: ['*'] ::
        wordsAux [] ((if noLog then "NO_LOG=1 ".data else []) ++ exe.data ++ ' ' ::
          (sp.data ++ " disable >/dev/null 2>&1".data)) := by
  obtain ⟨hne1, hws1, _⟩ := intChars_facts pm hpm0 hpm
  obtain ⟨hne2, hws2, _⟩ := intChars_facts ph hph0 hph
  have hstar : ∀ c ∈ ['*'], c.isWhitespace = false := by decide
  have hstarne : (['*'] : List Char) ≠ [] := by decide
  rw [pyWords, renderCronEntry_data]
  rw [pyWords_word _ _ hne1 hws1]
  rw [pyWords_word _ _ hne2 hws2]
  rw [show ('*' :: ' ' :: '*' :: ' ' :: '*' :: ' ' ::
      ((if noLog then "NO_LOG=1 ".data else []) ++ exe.data ++ ' ' ::
        (sp.data ++ " disable >/dev/null 2>&1".data))) =
      ['*'] ++ ' ' :: ('*' :: ' ' :: '*' :: ' ' ::
      ((if noLog then "NO_LOG=1 ".data else []) ++ exe.data ++ ' ' ::
        (sp.data ++ " disable >/dev/null 2>&1".data))) from rfl]
  rw [pyWords_word _ _ hstarne hstar]
  rw [show ('*' :: ' ' :: '*' :: ' ' ::
      ((if noLog then "NO_LOG=1 ".data else []) ++ exe.data ++ ' ' ::
        (sp.data ++ " disable >/dev/null 2>&1".data))) =
      ['*'] ++ ' ' :: ('*' :: ' ' ::
      ((if noLog then "NO_LOG=1 ".data else []) ++ exe.data ++ ' ' ::
        (sp.data ++ " disable >/dev/null 2>&1".data))) from rfl]
  rw [pyWords_word _ _ hstarne hstar]
  rw [show ('*' :: ' ' ::
      ((if noLog then "NO_LOG=1 ".data else []) ++ exe.data ++ ' ' ::
        (sp.data ++ " disable >/dev/null 2>&1".data))) =
      ['*'] ++ ' ' ::
      ((if noLog then "NO_LOG=1 ".data else []) ++ exe.data ++ ' ' ::
        (sp.data ++ " disable >/dev/null 2>&1".data)) from rfl]
  rw [pyWords_word _ _ hstarne hstar]

theorem firstTwoInts_renderCronEntry (noLog : Bool) (exe sp : String)
    (pm ph : Int) (hpm0 : 0 ≤ pm) (hpm : pm < 60) (hph0 : 0 ≤ ph) (hph : ph < 60) :
    firstTwoInts (renderCronEntry noLog exe sp pm ph) = some (pm, ph) := by
  obtain ⟨_, _, hp1⟩ := intChars_facts pm hpm0 hpm
  obtain ⟨_, _, hp2⟩ := intChars_facts ph hph0 hph
  rw [firstTwoInts, pyWords_renderCronEntry noLog exe sp pm ph hpm0 hpm hph0 hph]
  simp [hp1, hp2]

/-! ## Trace predicate lemmas -/

theorem isOkPut_put (c : String) (b : Bool) : isOkPut (Ev.put c b) = b := by
  cases b <;> rfl

theorem isFailedPut_put (c : String) (b : Bool) : isFailedPut (Ev.put c b) = !b := by
  cases b <;> rfl

theorem okPFA_cons (e : Ev) (l : List Ev) (h : isOkPut e = false) :
    okPutFollowedByApply (e :: l) = okPutFollowedByApply l := by
  cases l with
  | nil => simp [okPutFollowedByApply, h]
  | cons e2 rest => simp [okPutFollowedByApply, h]

theorem noA_cons (e : Ev) (l : List Ev) (h : isFailedPut e = false) :
    noApplyAfterFailedPut (e :: l) = noApplyAfterFailedPut l := by
  simp [noApplyAfterFailedPut, h]

theorem okPFA_append (pre l : List Ev)
    (h : ∀ e ∈ pre, isOkPut e = false) :
    okPutFollowedByApply (pre ++ l) = okPutFollowedByApply l := by
  induction pre with
  | nil => rfl
  | cons e pre' ih =>
    rw [List.cons_append, okPFA_cons _ _ (h e (by simp))]
    exact ih (fun e' he' => h e' (by simp [he']))

theorem noA_append (pre l : List Ev)
    (h : ∀ e ∈ pre, isFailedPut e = false) :
    noApplyAfterFailedPut (pre ++ l) = noApplyAfterFailedPut l := by
  induction pre with
  | nil => rfl
  | cons e pre' ih =>
    rw [List.cons_append, noA_cons _ _ (h e (by simp))]
    exact ih (fun e' he' => h e' (by simp [he']))

theorem cronSync_evs_benign (noLog : Bool) (exe sp : String) (env : Env) :
    ∀ e ∈ (checkAndUpdateCronjob noLog exe sp env).evs,
      isOkPut e = false ∧ isFailedPut e = false := by
  intro e he
  unfold checkAndUpdateCronjob setupCronjob at he
  repeat' split at he
  all_goals simp_all [isOkPut, isFailedPut]

theorem apiLoginEvs_benign (env : Env) :
    ∀ e ∈ apiLoginEvs env, isOkPut e = false ∧ isFailedPut e = false := by
  intro e he
  unfold apiLoginEvs at he
  split at he <;> simp_all [isOkPut, isFailedPut]

theorem pairing_of_benign (l : List Ev)
    (h : ∀ e ∈ l, isOkPut e = false ∧ isFailedPut e = false) :
    okPutFollowedByApply l = true ∧ noApplyAfterFailedPut l = true := by
  constructor
  · rw [← List.append_nil l, okPFA_append l [] (fun e he => (h e he).1)]; rfl
  · rw [← List.append_nil l, noA_append l [] (fun e he => (h e he).2)]; rfl

theorem pairing_put_true (pre : List Ev) (c : String) (aok : Bool)
    (hpre : ∀ e ∈ pre, isOkPut e = false ∧ isFailedPut e = false) :
    okPutFollowedByApply ((pre ++ [Ev.put c true]) ++ [Ev.apply aok]) = true ∧
    noApplyAfterFailedPut ((pre ++ [Ev.put c true]) ++ [Ev.apply aok]) = true := by
  rw [List.append_assoc]
  constructor
  · rw [okPFA_append pre _ (fun e he => (hpre e he).1)]; rfl
  · rw [noA_append pre _ (fun e he => (hpre e he).2)]; rfl

theorem pairing_put_false (pre : List Ev) (c : String)
    (hpre : ∀ e ∈ pre, isOkPut e = false ∧ isFailedPut e = false) :
    okPutFollowedByApply (pre ++ [Ev.put c false]) = true ∧
    noApplyAfterFailedPut (pre ++ [Ev.put c false]) = true := by
  constructor
  · rw [okPFA_append pre _ (fun e he => (hpre e he).1)]; rfl
  · rw [noA_append pre _ (fun e he => (hpre e he).2)]; rfl

theorem disableOp_pairing (noLog : Bool) (exe sp : String) (env : Env) :
    okPutFollowedByApply (disableOp noLog exe sp env).1 = true ∧
    noApplyAfterFailedPut (disableOp noLog exe sp env).1 = true := by
  have hcs := cronSync_evs_benign noLog exe sp env
  have hlg := apiLoginEvs_benign env
  have hpre : ∀ e ∈ (checkAndUpdateCronjob noLog exe sp env).evs ++ apiLoginEvs env ++
      [Ev.get "os/health"], isOkPut e = false ∧ isFailedPut e = false := by
    rw [List.forall_mem_append, List.forall_mem_append]
    exact ⟨⟨hcs, hlg⟩, by intro e he; simp at he; subst he; exact ⟨rfl, rfl⟩⟩
  unfold disableOp
  by_cases hok : (checkAndUpdateCronjob noLog exe sp env).ok = true
  swap
  · rw [Bool.not_eq_true] at hok
    rw [if_pos (by simp [hok])]
    exact pairing_of_benign _ hcs
  · rw [if_neg (by simp [hok])]
    by_cases hlo : apiLoginOk env = true
    swap
    · rw [Bool.not_eq_true] at hlo
      rw [if_pos (by simp [hlo])]
      exact pairing_of_benign _ (List.forall_mem_append.mpr ⟨hcs, hlg⟩)
    · rw [if_neg (by simp [hlo])]
      cases hd : disableResult env.healthCfg with
      | none =>
        exact pairing_of_benign _ hpre
      | some cfg' =>
        by_cases hput : env.putOk = true
        · rw [hput]
          exact pairing_put_true
            ((checkAndUpdateCronjob noLog exe sp env).evs ++ apiLoginEvs env ++
              [Ev.get "os/health"]) "os/health" env.applyOk hpre
        · rw [Bool.not_eq_true] at hput
          rw [hput]
          exact pairing_put_false
            ((checkAndUpdateCronjob noLog exe sp env).evs ++ apiLoginEvs env ++
              [Ev.get "os/health"]) "os/health" hpre

theorem enableOp_pairing (noLog : Bool) (exe sp : String) (env : Env) :
    okPutFollowedByApply (enableOp noLog exe sp env).1 = true ∧
    noApplyAfterFailedPut (enableOp noLog exe sp env).1 = true := by
  have hcs := cronSync_evs_benign noLog exe sp env
  have hlg := apiLoginEvs_benign env
  have hpre : ∀ e ∈ (checkAndUpdateCronjob noLog exe sp env).evs ++ apiLoginEvs env ++
      [Ev.get "os/health"], isOkPut e = false ∧ isFailedPut e = false := by
    rw [List.forall_mem_append, List.forall_mem_append]
    exact ⟨⟨hcs, hlg⟩, by intro e he; simp at he; subst he; exact ⟨rfl, rfl⟩⟩
  unfold enableOp
  by_cases hok : (checkAndUpdateCronjob noLog exe sp env).ok = true
  swap
  · rw [Bool.not_eq_true] at hok
    rw [if_pos (by simp [hok])]
    exact pairing_of_benign _ hcs
  · rw [if_neg (by simp [hok])]
    by_cases hlo : apiLoginOk env = true
    swap
    · rw [Bool.not_eq_true] at hlo
      rw [if_pos (by simp [hlo])]
      exact pairing_of_benign _ (List.forall_mem_append.mpr ⟨hcs, hlg⟩)
    · rw [if_neg (by simp [hlo])]
      cases hd : enableResult env.healthCfg with
      | none =>
        exact pairing_of_benign _ hpre
      | some cfg' =>
        by_cases hput : env.putOk = true
        · rw [hput]
          exact pairing_put_true
            ((checkAndUpdateCronjob noLog exe sp env).evs ++ apiLoginEvs env ++
              [Ev.get "os/health"]) "os/health" env.applyOk hpre
        · rw [Bool.not_eq_true] at hput
          rw [hput]
          exact pairing_put_false
            ((checkAndUpdateCronjob noLog exe sp env).evs ++ apiLoginEvs env ++
              [Ev.get "os/health"]) "os/health" hpre

theorem setupPostBackupOp_pairing (env : Env) :
    okPutFollowedByApply (setupPostBackupOp env).1 = true ∧
    noApplyAfterFailedPut (setupPostBackupOp env).1 = true := by
  have hlg := apiLoginEvs_benign env
  unfold setupPostBackupOp
  by_cases hlo : apiLoginOk env = true
  swap
  · rw [Bool.not_eq_true] at hlo
    rw [if_pos (by simp [hlo])]
    exact pairing_of_benign _ hlg
  · rw [if_neg (by simp [hlo])]
    by_cases hput : env.putOk = true
    · rw [hput]
      exact pairing_put_true (apiLoginEvs env) "os/backup/post-backup" env.applyOk hlg
    · rw [Bool.not_eq_true] at hput
      rw [hput]
      exact pairing_put_false (apiLoginEvs env) "os/backup/post-backup" hlg

/-! ## Schedule helper lemmas -/

theorem getBackupSchedule_pre_formula (cfg : Obj) (s : BackupSchedule)
    (hs : getBackupSchedule cfg = some s) :
    s.preMinute = (if s.minute - 5 < 0 then s.minute - 5 + 60 else s.minute - 5) ∧
    s.preHour = (if s.minute - 5 < 0 then (if s.hour - 1 < 0 then 23 else s.hour - 1)
                 else s.hour) := by
  simp only [getBackupSchedule] at hs
  split at hs
  · obtain rfl := Option.some.inj hs
    norm_num
  · split at hs
    · exact Option.noConfusion hs
    · split at hs
      · obtain rfl := Option.some.inj hs
        dsimp only
        constructor <;> rfl
      · exact Option.noConfusion hs

theorem getBackupSchedule_pre_range (cfg : Obj) (s : BackupSchedule)
    (hs : getBackupSchedule cfg = some s)
    (hh0 : 0 ≤ s.hour) (hh23 : s.hour ≤ 23)
    (hm0 : 0 ≤ s.minute) (hm59 : s.minute ≤ 59) :
    0 ≤ s.preMinute ∧ s.preMinute < 60 ∧ 0 ≤ s.preHour ∧ s.preHour < 60 := by
  obtain ⟨e1, e2⟩ := getBackupSchedule_pre_formula cfg s hs
  rw [e1, e2]
  split_ifs <;> omega

theorem healthObjQ_setKV (c : Obj) (v : Obj) :
    healthObjQ (setKV c "health" (JVal.obj v)) = v := by
  simp [healthObjQ, healthObjOf?, lookupKV_setKV_self]

theorem disableResult_set (c h : Obj) (xs : List JVal)
    (hany : xs.any isCheckName = true) :
    disableResult (setKV c "health" (JVal.obj (setKV h "ignore_checks" (JVal.arr xs)))) =
      some (setKV (setKV c "health" (JVal.obj (setKV h "ignore_checks" (JVal.arr xs))))
        "health" (JVal.obj (setKV (setKV h "ignore_checks" (JVal.arr xs))
          "ignore_checks" (JVal.arr xs)))) := by
  have hnorm := normalizeCfg_of_ne_nil
    (setKV c "health" (JVal.obj (setKV h "ignore_checks" (JVal.arr xs))))
    (setKV_ne_nil _ _ _)
  simp only [disableResult, hnorm, healthObjOf?, igOf?, lookupKV_setKV_self,
    hany, if_true]

theorem enableResult_set (c h : Obj) (xs : List JVal)
    (hnotany : xs.any isCheckName = false) (hne : xs ≠ []) :
    enableResult (setKV c "health" (JVal.obj (setKV h "ignore_checks" (JVal.arr xs)))) =
      some (setKV (setKV c "health" (JVal.obj (setKV h "ignore_checks" (JVal.arr xs))))
        "health" (JVal.obj (setKV (setKV h "ignore_checks" (JVal.arr xs))
          "ignore_checks" (JVal.arr xs)))) := by
  have hrm := removeFirstCheck_of_not_any xs hnotany
  have hnorm := normalizeCfg_of_ne_nil
    (setKV c "health" (JVal.obj (setKV h "ignore_checks" (JVal.arr xs))))
    (setKV_ne_nil _ _ _)
  have hempty : xs.isEmpty = false := by
    simp [List.isEmpty_iff, hne]
  simp only [enableResult, hnorm, healthObjOf?, igOf?, lookupKV_setKV_self, hrm,
    hempty, Bool.false_eq_true, if_false]

theorem enableResult_popped (c h : Obj)
    (hpop : lookupKV (popKV h "ignore_checks") "ignore_checks" = none) :
    enableResult (setKV c "health" (JVal.obj (popKV h "ignore_checks"))) =
      some (setKV (setKV c "health" (JVal.obj (popKV h "ignore_checks"))) "health"
        (JVal.obj (popKV (popKV h "ignore_checks") "ignore_checks"))) := by
  have hnorm := normalizeCfg_of_ne_nil
    (setKV c "health" (JVal.obj (popKV h "ignore_checks")))
    (setKV_ne_nil _ _ _)
  simp only [enableResult, hnorm, healthObjOf?, igOf?, lookupKV_setKV_self, hpop,
    removeFirstCheck, List.isEmpty_nil, if_true]

/-! ## Claim theorems -/

/-- Claim C2: for every backup configuration whose hour lies in 0–23 and
whose minute lies in 0–59, the pre-backup time computed by
`get_backup_schedule` equals the backup time minus five minutes:
`pre_minute = minute - 5`, and when that is negative the minute gains 60
and the hour is decremented, with hour 0 wrapping the pre-hour to 23.  The
computation involves only hour and minute — the model carries no
day-of-week or date component at all. -/
theorem claim_C2_pre_backup_time (cfg : Obj) (s : BackupSchedule)
    (hs : getBackupSchedule cfg = some s)
    (hh0 : 0 ≤ s.hour) (hh23 : s.hour ≤ 23)
    (hm0 : 0 ≤ s.minute) (hm59 : s.minute ≤ 59) :
    s.preMinute = (if s.minute - 5 < 0 then s.minute - 5 + 60 else s.minute - 5) ∧
    s.preHour = (if s.minute - 5 < 0 then (if s.hour = 0 then 23 else s.hour - 1)
                 else s.hour) := by
  obtain ⟨e1, e2⟩ := getBackupSchedule_pre_formula cfg s hs
  refine ⟨e1, ?_⟩
  rw [e2]
  split_ifs <;> omega

/-- Concrete payload scheduling the backup at 00:03. -/
def cfgB02 : Obj :=
  [("auto_backup", JVal.obj [("hour", JVal.num 0), ("minute", JVal.num 3)])]

/-- Witness for claim C2 at a backup time of 00:03: the pre-backup time is
23:58 (hour wraps to 23, minute 58). -/
theorem claim_C2_witness :
    getBackupSchedule cfgB02 = some ⟨0, 3, 23, 58, JVal.str "daily"⟩ ∧
    (58 : Int) = (if (3 : Int) - 5 < 0 then 3 - 5 + 60 else 3 - 5) ∧
    (23 : Int) = (if (3 : Int) - 5 < 0 then (if (0 : Int) = 0 then 23 else 0 - 1)
                  else 0) := by
  have h := claim_C2_pre_backup_time cfgB02 ⟨0, 3, 23, 58, JVal.str "daily"⟩ rfl
    (by norm_num) (by norm_num) (by norm_num) (by norm_num)
  exact ⟨rfl, h.1, h.2⟩

/-- Claim C6: an absent or empty `os/backup/auto-backup` payload yields the
default schedule hour 23, minute 48, schedule `daily`, pre-backup 23:43;
and with a present `auto_backup` mapping, each individually absent field
falls back to 23 / 48 / `daily` respectively. -/
theorem claim_C6_schedule_defaults :
    getBackupSchedule [] = some ⟨23, 48, 23, 43, JVal.str "daily"⟩ ∧
    (∀ cfg : Obj, lookupKV cfg "auto_backup" = none →
      getBackupSchedule cfg = some ⟨23, 48, 23, 43, JVal.str "daily"⟩) ∧
    (∀ (cfg ab : Obj) (s : BackupSchedule),
      lookupKV cfg "auto_backup" = some (JVal.obj ab) →
      getBackupSchedule cfg = some s →
      (lookupKV ab "hour" = none → s.hour = 23) ∧
      (lookupKV ab "minute" = none → s.minute = 48) ∧
      (lookupKV ab "schedule" = none → s.schedule = JVal.str "daily")) := by
  refine ⟨rfl, ?_, ?_⟩
  · intro cfg hl
    by_cases he : cfg.isEmpty = true
    · simp [getBackupSchedule, he]
    · rw [Bool.not_eq_true] at he
      simp only [getBackupSchedule, he, Bool.false_eq_true, if_false]
      rw [hl]
      rfl
  · intro cfg ab s hab hs
    have he : cfg.isEmpty = false := by
      cases cfg with
      | nil => exact absurd hab (by simp [lookupKV])
      | cons p rest => rfl
    simp only [getBackupSchedule, he, Bool.false_eq_true, if_false] at hs
    rw [hab] at hs
    dsimp only at hs
    split at hs
    · rename_i hour minute hh hm
      obtain rfl := Option.some.inj hs
      refine ⟨?_, ?_, ?_⟩ <;> intro hnone
      · rw [hnone] at hh
        exact (Option.some.inj hh).symm
      · rw [hnone] at hm
        exact (Option.some.inj hm).symm
      · dsimp only
        rw [hnone]
        rfl
    · exact Option.noConfusion hs

/-- Witness for claim C6: a non-empty payload without `auto_backup` yields
the full defaults, and an empty `auto_backup` mapping defaults each
field. -/
theorem claim_C6_witness :
    getBackupSchedule [("x", JVal.num 1)] = some ⟨23, 48, 23, 43, JVal.str "daily"⟩ ∧
    (⟨23, 48, 23, 43, JVal.str "daily"⟩ : BackupSchedule).hour = 23 ∧
    (⟨23, 48, 23, 43, JVal.str "daily"⟩ : BackupSchedule).minute = 48 ∧
    (⟨23, 48, 23, 43, JVal.str "daily"⟩ : BackupSchedule).schedule = JVal.str "daily" := by
  have h2 := claim_C6_schedule_defaults.2.1 [("x", JVal.num 1)] rfl
  have h3 := claim_C6_schedule_defaults.2.2 [("auto_backup", JVal.obj [])] []
    ⟨23, 48, 23, 43, JVal.str "daily"⟩ rfl rfl
  exact ⟨h2, h3.1 rfl, h3.2.1 rfl, h3.2.2 rfl⟩

/-- Claim C8: `get_stored_credentials` returns the no-credentials pair
`(None, None)` for an absent file, an unreadable file, fewer than two
lines, or undecodable content (the standard-library decoder enters as the
abstract parameter `dec`, `none` marking a raised decode error), and it
returns the decoded pair exactly when the file has at least two decodable
lines.  The function is total in the model: no exception escapes. -/
theorem claim_C8_credentials_load (dec : String → Option String) :
    getStoredCredentials dec CredFile.absent = (none, none) ∧
    getStoredCredentials dec CredFile.unreadable = (none, none) ∧
    (∀ ls : List String, ls.length < 2 →
      getStoredCredentials dec (CredFile.lines ls) = (none, none)) ∧
    (∀ (l0 l1 : String) (rest : List String),
      dec (pyStrip l0) = none ∨ dec (pyStrip l1) = none →
      getStoredCredentials dec (CredFile.lines (l0 :: l1 :: rest)) = (none, none)) ∧
    (∀ (l0 l1 : String) (rest : List String) (u p : String),
      dec (pyStrip l0) = some u → dec (pyStrip l1) = some p →
      getStoredCredentials dec (CredFile.lines (l0 :: l1 :: rest)) =
        (some u, some p)) := by
  refine ⟨rfl, rfl, ?_, ?_, ?_⟩
  · intro ls hlen
    cases ls with
    | nil => rfl
    | cons l0 ls' =>
      cases ls' with
      | nil => rfl
      | cons l1 ls'' => simp at hlen; omega
  · intro l0 l1 rest h
    unfold getStoredCredentials
    dsimp only
    rcases h with h | h
    · rw [h]
    · rw [h]
      cases dec (pyStrip l0) <;> rfl
  · intro l0 l1 rest u p h0 h1
    unfold getStoredCredentials
    dsimp only
    rw [h0, h1]

/-- Witness for claim C8 with the identity decoder: an absent file and a
one-line file yield `(None, None)`; a two-line file yields the decoded
pair. -/
theorem claim_C8_witness :
    getStoredCredentials Option.some CredFile.absent = (none, none) ∧
    getStoredCredentials Option.some (CredFile.lines ["u"]) = (none, none) ∧
    getStoredCredentials Option.some (CredFile.lines ["u", "p"]) =
      (some "u", some "p") := by
  have h := claim_C8_credentials_load Option.some
  exact ⟨h.1, h.2.2.1 ["u"] (by norm_num),
    h.2.2.2.2 "u" "p" [] "u" "p" rfl rfl⟩

/-- Claim C9: for every subcommand the exit code is one of 0, 1, 130; it is
130 exactly on a keyboard interrupt; an uncaught exception exits 1; and a
dispatched boolean outcome exits 0 exactly when the operation reported
success (with `cleanup` and `status` always counted as success by the
dispatcher). -/
theorem claim_C9_exit_codes (cmd : Cmd) (r : TopOutcome) :
    (mainExitCode cmd r = 0 ∨ mainExitCode cmd r = 1 ∨ mainExitCode cmd r = 130) ∧
    (mainExitCode cmd r = 130 ↔ r = TopOutcome.intr) ∧
    (r = TopOutcome.exc → mainExitCode cmd r = 1) ∧
    (∀ b, r = TopOutcome.ok b →
      (mainExitCode cmd r = 0 ↔
        (b = true ∨ cmd = Cmd.cleanup ∨ cmd = Cmd.status))) := by
  cases r with
  | intr => cases cmd <;> simp [mainExitCode]
  | exc => cases cmd <;> simp [mainExitCode]
  | ok b => cases cmd <;> cases b <;> simp [mainExitCode]

/-- Witness for claim C9: the three exit codes at concrete outcomes. -/
theorem claim_C9_witness :
    mainExitCode Cmd.disable (TopOutcome.ok true) = 0 ∧
    mainExitCode Cmd.enable (TopOutcome.ok false) = 1 ∧
    mainExitCode Cmd.setup TopOutcome.exc = 1 ∧
    mainExitCode Cmd.credentials TopOutcome.intr = 130 ∧
    mainExitCode Cmd.cleanup (TopOutcome.ok false) = 0 := by
  refine ⟨((claim_C9_exit_codes Cmd.disable (TopOutcome.ok true)).2.2.2 true
      rfl).mpr (Or.inl rfl),
    rfl,
    (claim_C9_exit_codes Cmd.setup TopOutcome.exc).2.2.1 rfl,
    (claim_C9_exit_codes Cmd.credentials TopOutcome.intr).2.1.mpr rfl,
    ((claim_C9_exit_codes Cmd.cleanup (TopOutcome.ok false)).2.2.2 false
      rfl).mpr (Or.inr (Or.inl rfl))⟩

/-- Claim C4: when no line of the crontab contains both the resolved script
path and the word `disable`, `check_and_update_cronjob` performs no crontab
write (an absent/failed listing is covered by the empty default). -/
theorem claim_C4_no_entry_no_write (noLog : Bool) (exe sp : String) (env : Env)
    (h : ∀ l ∈ env.crontab.getD [], matchesLine sp l = false) :
    (checkAndUpdateCronjob noLog exe sp env).writes = [] := by
  have hfind : getCurrentCronEntry env.crontab sp = none := by
    unfold getCurrentCronEntry
    cases hc : env.crontab with
    | none => rfl
    | some ls =>
      have hnone : ls.find? (fun l => matchesLine sp l) = none := by
        rw [List.find?_eq_none]
        intro x hx
        have := h x (by rw [hc]; exact hx)
        simp [this]
      dsimp only
      rw [hnone]
      rfl
  unfold checkAndUpdateCronjob
  split
  · rfl
  · rw [hfind]

/-- A crontab with no entry for this tool. -/
def envC4 : Env := ⟨false, true, [], [], true, true, some ["0 0 * * * /bin/true"]⟩

/-- Witness for claim C4: a crontab whose single line does not mention the
script is left untouched. -/
theorem claim_C4_witness :
    (checkAndUpdateCronjob false "py" "/s/m.py" envC4).writes = [] :=
  claim_C4_no_entry_no_write false "py" "/s/m.py" envC4 (by decide)

/-- Claim C7: when `enable_check` reaches its PUT, the payload carries no
`ignore_checks` key at all if the removal left the list empty, and carries
the remaining list as-is otherwise.  (The key-uniqueness hypothesis on the
health mapping reflects Python dict semantics, which the association-list
model does not enforce by itself.) -/
theorem claim_C7_empty_list_pruned (cfg cfg' : Obj)
    (hr : enableResult cfg = some cfg')
    (hnd : ((healthObjQ cfg).map Prod.fst).Nodup) :
    (removeFirstCheck (ignoreListOf cfg) = [] →
      lookupKV (healthObjQ cfg') "ignore_checks" = none) ∧
    (removeFirstCheck (ignoreListOf cfg) ≠ [] →
      lookupKV (healthObjQ cfg') "ignore_checks" =
        some (JVal.arr (removeFirstCheck (ignoreListOf cfg)))) := by
  obtain ⟨h, ig, hh, hi, hcase⟩ := enableResult_shape cfg cfg' hr
  have hig : ignoreListOf cfg = ig := igAgree cfg h ig hh hi
  have hq : healthObjQ cfg = h := healthObjQ_agree cfg h hh
  rw [hig]
  rw [hq] at hnd
  rcases hcase with ⟨hemp, rfl⟩ | ⟨hne, rfl⟩
  · refine ⟨fun _ => ?_, fun hne' => absurd hemp hne'⟩
    rw [healthObjQ_setKV]
    exact lookupKV_popKV_self h "ignore_checks" hnd
  · refine ⟨fun hemp' => absurd hemp' hne, fun _ => ?_⟩
    rw [healthObjQ_setKV, lookupKV_setKV_self]

/-- A health payload whose ignore list holds only the fixed identifier. -/
def cfgC7 : Obj :=
  [("health", JVal.obj [("keep", JVal.bool true),
    ("ignore_checks", JVal.arr [JVal.str checkName])])]

/-- The payload `enable_check` produces from `cfgC7`. -/
def cfgC7out : Obj := [("health", JVal.obj [("keep", JVal.bool true)])]

/-- Witness for claim C7: removing the lone identifier prunes the
`ignore_checks` key entirely. -/
theorem claim_C7_witness :
    enableResult cfgC7 = some cfgC7out ∧
    removeFirstCheck (ignoreListOf cfgC7) = [] ∧
    lookupKV (healthObjQ cfgC7out) "ignore_checks" = none := by
  refine ⟨rfl, rfl, ?_⟩
  exact (claim_C7_empty_list_pruned cfgC7 cfgC7out rfl (by decide)).1 rfl

/-- A fetched health payload in which the fixed identifier already occurs
twice in the ignore list. -/
def cfgDup : Obj :=
  [("health", JVal.obj
    [("ignore_checks", JVal.arr [JVal.str checkName, JVal.str checkName])])]

/-- Counterexample to claim C1 as stated: on a fetched payload whose ignore
list already contains the fixed identifier twice, `disable_check` PUTs the
list back with two occurrences (not exactly one), and `enable_check`
removes only the first occurrence, leaving one (not absent). -/
theorem claim_C1_counterexample :
    disableResult cfgDup = some cfgDup ∧
    countCheck (ignoreListOf cfgDup) = 2 ∧
    enableResult cfgDup =
      some [("health", JVal.obj [("ignore_checks", JVal.arr [JVal.str checkName])])] ∧
    countCheck (ignoreListOf
      [("health", JVal.obj [("ignore_checks", JVal.arr [JVal.str checkName])])]) = 1 :=
  ⟨rfl, rfl, rfl, rfl⟩

/-- Claim C1 (amended): for every fetched health payload in which the fixed
identifier occurs at most once — the invariant the tool itself maintains —
`disable_check` leaves it occurring exactly once, `enable_check` leaves it
absent, and a repeated `disable_check` or `enable_check` leaves the ignore
list unchanged (idempotence). -/
theorem claim_C1_amended (cfg : Obj)
    (hcount : countCheck (ignoreListOf cfg) ≤ 1) :
    (∀ cfg', disableResult cfg = some cfg' →
      countCheck (ignoreListOf cfg') = 1 ∧
      ∃ cfg'', disableResult cfg' = some cfg'' ∧
        ignoreListOf cfg'' = ignoreListOf cfg') ∧
    (∀ cfg', enableResult cfg = some cfg' →
      ((healthObjQ cfg).map Prod.fst).Nodup →
      countCheck (ignoreListOf cfg') = 0 ∧
      ∃ cfg'', enableResult cfg' = some cfg'' ∧
        ignoreListOf cfg'' = ignoreListOf cfg') := by
  constructor
  · intro cfg' hr
    obtain ⟨h, ig, hh, hi, rfl⟩ := disableResult_shape cfg cfg' hr
    have hig : ignoreListOf cfg = ig := igAgree cfg h ig hh hi
    rw [hig] at hcount
    have hlist := ignoreListOf_set (normalizeCfg cfg) h
      (if ig.any isCheckName then ig else ig ++ [JVal.str checkName])
    have hany2 : (if ig.any isCheckName then ig
        else ig ++ [JVal.str checkName]).any isCheckName = true := by
      by_cases ha : ig.any isCheckName = true
      · rw [if_pos ha]; exact ha
      · rw [if_neg (by simp [ha])]
        simp [List.any_append, isCheckName_str_checkName]
    constructor
    · rw [hlist]
      by_cases ha : ig.any isCheckName = true
      · rw [if_pos ha]
        have := countCheck_pos_of_any ig ha
        omega
      · have ha' : ig.any isCheckName = false := by simpa using ha
        rw [if_neg (by simp [ha'])]
        rw [countCheck_append_check, countCheck_eq_zero_of_not_any ig ha']
    · exact ⟨_, disableResult_set (normalizeCfg cfg) h _ hany2,
        by rw [ignoreListOf_set, hlist]⟩
  · intro cfg' hr hnd
    obtain ⟨h, ig, hh, hi, hcase⟩ := enableResult_shape cfg cfg' hr
    have hig : ignoreListOf cfg = ig := igAgree cfg h ig hh hi
    have hq : healthObjQ cfg = h := healthObjQ_agree cfg h hh
    rw [hig] at hcount
    rw [hq] at hnd
    have hnotany : (removeFirstCheck ig).any isCheckName = false :=
      removeFirstCheck_not_any ig hcount
    rcases hcase with ⟨hemp, rfl⟩ | ⟨hne, rfl⟩
    · have hlist := ignoreListOf_pop (normalizeCfg cfg) h hnd
      constructor
      · rw [hlist]; rfl
      · have hpop : lookupKV (popKV h "ignore_checks") "ignore_checks" = none :=
          lookupKV_popKV_self h "ignore_checks" hnd
        exact ⟨_, enableResult_popped (normalizeCfg cfg) h hpop,
          by rw [ignoreListOf_pop _ _ (popKV_keys_nodup h "ignore_checks" hnd), hlist]⟩
    · have hlist := ignoreListOf_set (normalizeCfg cfg) h (removeFirstCheck ig)
      constructor
      · rw [hlist]
        exact countCheck_eq_zero_of_not_any _ hnotany
      · have hrm : removeFirstCheck (removeFirstCheck ig) = removeFirstCheck ig :=
          removeFirstCheck_of_not_any _ hnotany
        exact ⟨_, enableResult_set (normalizeCfg cfg) h _ hnotany hne,
          by rw [ignoreListOf_set, hlist]⟩

/-- Witness for claim C1 (amended) at the empty fetched payload: after
`disable_check` the identifier occurs once, after `enable_check` it is
absent. -/
theorem claim_C1_witness :
    countCheck (ignoreListOf ([] : Obj)) ≤ 1 ∧
    countCheck (ignoreListOf
      [("health", JVal.obj [("ignore_checks", JVal.arr [JVal.str checkName])])]) = 1 ∧
    countCheck (ignoreListOf [("health", JVal.obj [])]) = 0 := by
  have h := claim_C1_amended [] (by decide)
  exact ⟨by decide, (h.1 _ rfl).1, (h.2 _ rfl (by decide)).1⟩

/-- Claim C10: the payload PUT back by `disable_check`/`enable_check` agrees
with the fetched payload on every top-level key other than `health` and on
every key under `health` other than `ignore_checks`. -/
theorem claim_C10_frame (cfg cfg' : Obj) :
    (disableResult cfg = some cfg' →
      (∀ k, k ≠ "health" → lookupKV cfg' k = lookupKV cfg k) ∧
      (∀ k, k ≠ "ignore_checks" →
        lookupKV (healthObjQ cfg') k = lookupKV (healthObjQ cfg) k)) ∧
    (enableResult cfg = some cfg' →
      (∀ k, k ≠ "health" → lookupKV cfg' k = lookupKV cfg k) ∧
      (∀ k, k ≠ "ignore_checks" →
        lookupKV (healthObjQ cfg') k = lookupKV (healthObjQ cfg) k)) := by
  constructor
  · intro hr
    obtain ⟨h, ig, hh, hi, rfl⟩ := disableResult_shape cfg cfg' hr
    have hq : healthObjQ cfg = h := healthObjQ_agree cfg h hh
    constructor
    · intro k hk
      rw [lookupKV_setKV_ne _ _ _ _ hk, lookupKV_normalizeCfg_ne _ _ hk]
    · intro k hk
      rw [healthObjQ_setKV, lookupKV_setKV_ne _ _ _ _ hk, hq]
  · intro hr
    obtain ⟨h, ig, hh, hi, hcase⟩ := enableResult_shape cfg cfg' hr
    have hq : healthObjQ cfg = h := healthObjQ_agree cfg h hh
    rcases hcase with ⟨hemp, rfl⟩ | ⟨hne, rfl⟩
    · constructor
      · intro k hk
        rw [lookupKV_setKV_ne _ _ _ _ hk, lookupKV_normalizeCfg_ne _ _ hk]
      · intro k hk
        rw [healthObjQ_setKV, lookupKV_popKV_ne _ _ _ hk, hq]
    · constructor
      · intro k hk
        rw [lookupKV_setKV_ne _ _ _ _ hk, lookupKV_normalizeCfg_ne _ _ hk]
      · intro k hk
        rw [healthObjQ_setKV, lookupKV_setKV_ne _ _ _ _ hk, hq]

/-- A payload with an unrelated top-level key and an unrelated key under
`health`. -/
def cfgC10 : Obj :=
  [("other", JVal.num 7),
   ("health", JVal.obj [("foo", JVal.bool true), ("ignore_checks", JVal.arr [])])]

/-- The payload `disable_check` produces from `cfgC10`. -/
def cfgC10out : Obj :=
  [("other", JVal.num 7),
   ("health", JVal.obj [("foo", JVal.bool true),
     ("ignore_checks", JVal.arr [JVal.str checkName])])]

/-- Witness for claim C10: the unrelated keys survive `disable_check`
unchanged. -/
theorem claim_C10_witness :
    disableResult cfgC10 = some cfgC10out ∧
    lookupKV cfgC10out "other" = some (JVal.num 7) ∧
    lookupKV (healthObjQ cfgC10out) "foo" = some (JVal.bool true) := by
  have h := (claim_C10_frame cfgC10 cfgC10out).1 rfl
  exact ⟨rfl, (h.1 "other" (by decide)).trans rfl,
    (h.2 "foo" (by decide)).trans rfl⟩

/-- Claim C5: when the crontab holds a matching entry whose first two
whitespace-separated fields parse to integers differing from the computed
pre-backup minute/hour, `check_and_update_cronjob` performs exactly one
crontab rewrite, and the written crontab contains exactly one line matching
the path-and-`disable` predicate, whose minute and hour fields equal the
computed pre-backup values. -/
theorem claim_C5_schedule_rewrite (noLog : Bool) (exe sp : String) (env : Env)
    (sch : BackupSchedule) (entry : String) (p0 p1 : List Char)
    (rest : List (List Char)) (cm ch : Int)
    (hs : getBackupSchedule env.backupCfg = some sch)
    (hh0 : 0 ≤ sch.hour) (hh23 : sch.hour ≤ 23)
    (hm0 : 0 ≤ sch.minute) (hm59 : sch.minute ≤ 59)
    (hentry : getCurrentCronEntry env.crontab sp = some entry)
    (hw : pyWords entry = p0 :: p1 :: rest)
    (hlen : 5 ≤ rest.length + 2)
    (hp0 : pyInt? p0 = some cm) (hp1 : pyInt? p1 = some ch)
    (hdiff : cm ≠ sch.preMinute ∨ ch ≠ sch.preHour) :
    (checkAndUpdateCronjob noLog exe sp env).writes.length = 1 ∧
    ∀ w ∈ (checkAndUpdateCronjob noLog exe sp env).writes,
      w.countP (fun l => matchesLine sp l) = 1 ∧
      ∀ l ∈ w, matchesLine sp l = true →
        firstTwoInts l = some (sch.preMinute, sch.preHour) := by
  obtain ⟨hpm0, hpm60, hph0, hph60⟩ :=
    getBackupSchedule_pre_range env.backupCfg sch hs hh0 hh23 hm0 hm59
  have hw' : (checkAndUpdateCronjob noLog exe sp env).writes =
      (setupCronjob noLog exe sp env).writes := by
    simp only [checkAndUpdateCronjob, hs, hentry, hw]
    rw [if_pos hlen]
    rw [hp0, hp1]
    dsimp only
    rw [if_pos hdiff]
  have hsw : (setupCronjob noLog exe sp env).writes =
      [(env.crontab.getD []).filter (fun l => !matchesLine sp l) ++
        [renderCronEntry noLog exe sp sch.preMinute sch.preHour]] := by
    simp only [setupCronjob, hs]
  rw [hw', hsw]
  have hmatch := matchesLine_renderCronEntry noLog exe sp sch.preMinute sch.preHour
  refine ⟨rfl, ?_⟩
  intro w hwmem
  rw [List.mem_singleton] at hwmem
  subst hwmem
  constructor
  · rw [List.countP_append]
    have h1 : ((env.crontab.getD []).filter
        (fun l => !matchesLine sp l)).countP (fun l => matchesLine sp l) = 0 := by
      rw [List.countP_eq_zero]
      intro l hl
      have hkeep := (List.mem_filter.mp hl).2
      simp only [Bool.not_eq_true'] at hkeep
      simp [hkeep]
    rw [h1]
    simp [List.countP_cons, hmatch]
  · intro l hl hml
    rcases List.mem_append.mp hl with hl | hl
    · have hkeep := (List.mem_filter.mp hl).2
      simp [hml] at hkeep
    · rw [List.mem_singleton] at hl
      subst hl
      exact firstTwoInts_renderCronEntry noLog exe sp _ _ hpm0 hpm60 hph0 hph60

/-- A crontab holding an out-of-date entry for this tool (pre-backup target
is 23:43 under the default schedule, but the entry reads 22:13). -/
def envC5 : Env := ⟨false, true, [], [], true, true,
  some ["# backup helper",
    "13 22 * * * /usr/bin/python3 /home/a/m.py disable >/dev/null 2>&1"]⟩

/-- Witness for claim C5: the stale entry triggers exactly one rewrite whose
single matching line carries the recomputed 23:43 pre-backup time. -/
theorem claim_C5_witness :
    (checkAndUpdateCronjob false "/usr/bin/python3" "/home/a/m.py" envC5).writes.length
      = 1 ∧
    ((checkAndUpdateCronjob false "/usr/bin/python3" "/home/a/m.py"
        envC5).writes.headD []).countP (fun l => matchesLine "/home/a/m.py" l) = 1 ∧
    firstTwoInts (renderCronEntry false "/usr/bin/python3" "/home/a/m.py" 43 23) =
      some (43, 23) := by
  have h := claim_C5_schedule_rewrite false "/usr/bin/python3" "/home/a/m.py" envC5
    ⟨23, 48, 23, 43, JVal.str "daily"⟩
    "13 22 * * * /usr/bin/python3 /home/a/m.py disable >/dev/null 2>&1"
    "13".data "22".data
    ["*".data, "*".data, "*".data, "/usr/bin/python3".data, "/home/a/m.py".data,
      "disable".data, ">/dev/null".data, "2>&1".data]
    13 22 rfl (by norm_num) (by norm_num) (by norm_num) (by norm_num)
    (by decide) (by decide) (by norm_num) (by decide) (by decide)
    (Or.inl (by norm_num))
  obtain ⟨h1, h2⟩ := h
  refine ⟨h1, ?_, by decide⟩
  have hmem : (checkAndUpdateCronjob false "/usr/bin/python3" "/home/a/m.py"
      envC5).writes.headD [] ∈
      (checkAndUpdateCronjob false "/usr/bin/python3" "/home/a/m.py" envC5).writes := by
    rcases hws : (checkAndUpdateCronjob false "/usr/bin/python3" "/home/a/m.py"
        envC5).writes with _ | ⟨w, ws⟩
    · rw [hws] at h1; simp at h1
    · simp [hws]
  exact (h2 _ hmem).1

/-- An environment where the API PUT fails while login succeeds without
explicit credentials. -/
def envC3 : Env := ⟨false, true, [], [], false, true, none⟩

/-- Counterexample to claim C3 as stated: `cleanup`'s post-backup clear
issues PUT and APPLY as two unconditional statements, so with a failing
PUT the APPLY is still sent — the trace violates the short-circuit rule
the claim asserts for every mutating operation. -/
theorem claim_C3_counterexample :
    (cleanupOp false "py" "sp" envC3).1 =
      [Ev.put "os/backup/post-backup" false, Ev.apply true,
       Ev.get "os/backup/auto-backup", Ev.get "os/health",
       Ev.put "os/health" false] ∧
    noApplyAfterFailedPut (cleanupOp false "py" "sp" envC3).1 = false :=
  ⟨rfl, rfl⟩

/-- Claim C3 (amended): in `disable_check`, `enable_check` and
`setup_post_backup` every successful PUT is immediately followed by an
APPLY and no APPLY ever follows a failed PUT (the APPLY is skipped exactly
when the PUT failed); in `cleanup`'s post-backup clear the PUT is instead
unconditionally followed by an APPLY, even when the PUT failed, so the
APPLY is never skipped there. -/
theorem claim_C3_amended (noLog : Bool) (exe sp : String) (env : Env) :
    (okPutFollowedByApply (disableOp noLog exe sp env).1 = true ∧
     noApplyAfterFailedPut (disableOp noLog exe sp env).1 = true) ∧
    (okPutFollowedByApply (enableOp noLog exe sp env).1 = true ∧
     noApplyAfterFailedPut (enableOp noLog exe sp env).1 = true) ∧
    (okPutFollowedByApply (setupPostBackupOp env).1 = true ∧
     noApplyAfterFailedPut (setupPostBackupOp env).1 = true) ∧
    (apiLoginOk env = true →
      [Ev.put "os/backup/post-backup" env.putOk, Ev.apply env.applyOk] <:+:
        (cleanupOp noLog exe sp env).1) := by
  refine ⟨disableOp_pairing noLog exe sp env, enableOp_pairing noLog exe sp env,
    setupPostBackupOp_pairing env, ?_⟩
  intro hlo
  unfold cleanupOp
  dsimp only
  rw [if_pos hlo]
  exact ⟨apiLoginEvs env, (enableOp noLog exe sp env).1, by simp⟩

/-- An environment with no resolved credentials (so `api_login` succeeds
without a request) and successful PUT/APPLY. -/
def envC3w : Env := ⟨false, true, [], [], true, true, none⟩

/-- Witness for claim C3 (amended): the pairing predicates hold on a
concrete `disable_check` trace and the unconditional PUT–APPLY pair sits
inside a concrete `cleanup` trace. -/
theorem claim_C3_witness :
    noApplyAfterFailedPut (disableOp false "py" "sp" envC3w).1 = true ∧
    [Ev.put "os/backup/post-backup" true, Ev.apply true] <:+:
      (cleanupOp false "py" "sp" envC3w).1 := by
  have h := claim_C3_amended false "py" "sp" envC3w
  exact ⟨h.1.2, h.2.2.2 rfl⟩

end LoadAvg
